import Mathlib

/-!
Verification of the deprecated-API extractor and ESLint matcher pipeline.

The definitions below are a shallow embedding of two source files:
  * `scripts/extract-deprecated-apis.js` (the extractor: scanner, kind
    classifier, identifier-name extraction, registry builder), and
  * `src/rules/no-deprecated-comfyui-apis.ts` (the matcher: lookup-map
    construction, ignore-pattern filtering, built-in exclusion, reporting).

JavaScript strings are modelled as Lean `String`/`List Char`; objects used as
ordered key-value maps (`this.deprecatedApis`, the `Map` populated from
`Object.entries`) are modelled as insertion-ordered association lists; regular
expressions from the source are modelled as executable matchers whose
determinisation is justified pattern-by-pattern in comments.
-/

/-! ## Data model (matcher side)

Mirrors the interfaces `DeprecatedApi` / `DeprecatedApisData` of
`no-deprecated-comfyui-apis.ts`.  Category maps are association lists to keep
JavaScript object-key insertion order observable. -/

structure DeprecatedApi where
  name : String
  reason : String
  file : String
  line : Nat
  context : String
deriving DecidableEq

structure DeprecatedApisData where
  extractedAt : String
  totalCount : Nat
  sources : List String
  deprecatedApis : List (String × List DeprecatedApi)
deriving DecidableEq

/-- Models `m[key].push(a)`, creating the key at the end when absent (JavaScript
object/`Map` insertion order). -/
def assocPush {α : Type} (m : List (String × List α)) (key : String) (a : α) :
    List (String × List α) :=
  match m with
  | [] => [(key, [a])]
  | (k, items) :: rest =>
      if k = key then (k, items ++ [a]) :: rest else (k, items) :: assocPush rest key a

/-- Reading `m[key]` (first binding wins); a missing key reads as the empty
list (the only use sites guard on emptiness exactly as the source guards on
`undefined`). -/
def assocGet {α : Type} : List (String × List α) → String → List α
  | [], _ => []
  | kv :: rest, key => if kv.1 = key then kv.2 else assocGet rest key

/-- Models `String.prototype.toLowerCase` on the ASCII identifier alphabet. -/
def lowerStr (s : String) : String := String.mk (s.data.map Char.toLower)

/-- The module-load loop populating `deprecatedLookup`: for each category (in
object-key order) and each item (in array order), push `(item, category)` under
the lowercased name. -/
def buildLookup (data : DeprecatedApisData) :
    List (String × List (DeprecatedApi × String)) :=
  data.deprecatedApis.foldl
    (fun m cat =>
      cat.2.foldl (fun m item => assocPush m (lowerStr item.name) (item, cat.1)) m)
    []

/-! ## Rule options and the abstract regex engine

`isIgnored` calls `new RegExp(pattern)` inside `try`/`catch`.  The JavaScript
regex engine is abstracted as a compilation function: `compile p = some test`
when `p` compiles (`test name` being `regex.test(name)`, i.e. an anywhere
match), `none` when the constructor throws. -/

structure RuleOptions where
  severity : String
  ignorePatterns : List String
  showContext : Bool
deriving DecidableEq

structure RegexEngine where
  compile : String → Option (String → Bool)

/-- Models `isIgnored` of the rule: `ignorePatterns.some(...)` with per-pattern
fallback to exact string equality when compilation fails. -/
def isIgnored (eng : RegexEngine) (opts : RuleOptions) (name : String) : Bool :=
  opts.ignorePatterns.any fun pattern =>
    match eng.compile pattern with
    | some test => test name
    | none => pattern == name

/-- A diagnostic as handed to `context.report`: the message id plus the
rendered data fields. -/
structure Diagnostic where
  messageId : String
  name : String
  reason : String
  file : String
  line : String
deriving DecidableEq

/-- The message-selection and data-rendering part of `reportDeprecated`
(everything after the ignore guard). -/
def renderDiag (opts : RuleOptions) (name : String) (info : DeprecatedApi) :
    Diagnostic :=
  let reason :=
    if info.reason ≠ "No reason provided" then "Reason: " ++ info.reason
    else "Check ComfyUI documentation for alternatives."
  let messageId :=
    if opts.showContext && info.file != "" then "deprecatedApiWithContext"
    else if info.reason ≠ "No reason provided" then "deprecatedApi"
    else "deprecatedApiGeneric"
  { messageId := messageId, name := name, reason := reason,
    file := info.file, line := toString info.line }

/-- Models `reportDeprecated`: returns the diagnostic passed to `context.report`, or
`none` when the ignore guard fires. -/
def reportDeprecated (eng : RegexEngine) (opts : RuleOptions) (name : String)
    (info : DeprecatedApi) : Option Diagnostic :=
  if isIgnored eng opts name then none else some (renderDiag opts name info)

/-- The fixed built-in exclusion set of `checkIdentifier`. -/
def builtIns : List String :=
  ["Set", "Map", "Array", "Object", "Promise", "Function", "String", "Number",
   "Boolean"]

/-- Models `checkIdentifier`: skip built-ins, look up the lowercased name, report the
first record of the lookup list. -/
def checkIdentifier (eng : RegexEngine) (opts : RuleOptions)
    (lookup : List (String × List (DeprecatedApi × String))) (name : String) :
    Option Diagnostic :=
  if builtIns.contains name then none
  else
    match assocGet lookup (lowerStr name) with
    | [] => none
    | first :: _ => reportDeprecated eng opts name first.1

/-- One linting pass over a file: the host traversal hands each occurrence
node's identifier text to `checkIdentifier` independently (the rule keeps no
state between handler invocations). -/
def runRule (eng : RegexEngine) (opts : RuleOptions)
    (lookup : List (String × List (DeprecatedApi × String)))
    (occurrences : List String) : List Diagnostic :=
  occurrences.filterMap (checkIdentifier eng opts lookup)

/-! Concrete instances used by witnesses and counterexamples. -/

/-- A registry entry as the extractor would emit for the test fixture
function `serialise`. -/
def demoApi : DeprecatedApi :=
  { name := "serialise", reason := "Use serializeGraph",
    file := "utils/vintageClipboard.ts", line := 5,
    context := "export function serialise(graph)" }

def demoData : DeprecatedApisData :=
  { extractedAt := "2025-01-07T00:00:00.000Z", totalCount := 1,
    sources := ["src"], deprecatedApis := [("functions", [demoApi])] }

def demoLookup : List (String × List (DeprecatedApi × String)) :=
  buildLookup demoData

/-- A concrete regex engine for witnesses: the single pattern `"("` fails to
compile (as in JavaScript), every other pattern compiles to an exact-match
test. -/
def demoEngine : RegexEngine :=
  ⟨fun p => if p = "(" then none else some (fun n => p == n)⟩

/-! ## Extractor side: character classes and literal helpers

Executable renderings of the regular expressions of
`extract-deprecated-apis.js`.  Every matcher below is deterministic; where the
source regex could in principle backtrack, a comment justifies that the greedy
deterministic reading is equivalent for the pattern at hand. -/

/-- JavaScript `\s` restricted to the control/space characters occurring in
source text. -/
def isSpaceChar (c : Char) : Bool :=
  c = ' ' || c = '\t' || c = '\n' || c = '\r' || c = '\x0b' || c = '\x0c'

/-- JavaScript `\w`, i.e. `[A-Za-z0-9_]`. -/
def isWordChar (c : Char) : Bool := c.isAlphanum || c = '_'

/-- Strip a literal prefix, returning the remainder. -/
def dropLit? : List Char → List Char → Option (List Char)
  | [], s => some s
  | _ :: _, [] => none
  | c :: cs, x :: xs => if x = c then dropLit? cs xs else none

/-- Strip a literal prefix case-insensitively (the `i` regex flag). -/
def dropLitCI? : List Char → List Char → Option (List Char)
  | [], s => some s
  | _ :: _, [] => none
  | c :: cs, x :: xs => if x.toLower = c.toLower then dropLitCI? cs xs else none

/-- Models `\s+` followed by a non-space token: consume the maximal whitespace run
(backtracking cannot help because the next token never starts with
whitespace). -/
def skipWs1? (s : List Char) : Option (List Char) :=
  match s with
  | [] => none
  | c :: rest => if isSpaceChar c then some (rest.dropWhile isSpaceChar) else none

/-- Models `\s*` followed by a non-space token. -/
def skipWs (s : List Char) : List Char := s.dropWhile isSpaceChar

/-- Models `\w+` followed by a token that is not a word character: the maximal word
run is captured (shortening the run would leave a word character facing the
non-word continuation). -/
def takeWord1? (s : List Char) : Option (String × List Char) :=
  match s.takeWhile isWordChar with
  | [] => none
  | w => some (String.mk w, s.dropWhile isWordChar)

/-- Match one expected character. -/
def expectChar? (c : Char) (s : List Char) : Option (List Char) :=
  match s with
  | [] => none
  | x :: rest => if x = c then some rest else none

/-- Models `[^)]*\)`: consume up to and including the first closing parenthesis
(the class cannot cross one, so greedy and lazy readings agree). -/
def dropThroughRParen? : List Char → Option (List Char)
  | [] => none
  | c :: rest => if c = ')' then some rest else dropThroughRParen? rest

/-- Returns `true` when the next character exists and is whitespace — the test-only
reading of a trailing `\s+`. -/
def headIsWs (s : List Char) : Bool :=
  match s with
  | c :: _ => isSpaceChar c
  | [] => false

/-- Leftmost-match search: JavaScript regex matching tries each start
position from the left and returns the first position where the pattern
matches. -/
def scanLeft {α : Type} (f : List Char → Option α) : List Char → Option α
  | [] => f []
  | c :: rest => (f (c :: rest)).orElse (fun _ => scanLeft f rest)

/-! ## `guessItemType` — kind classification

Source patterns (all anchored with `^`), tested in order:
  1. `^(export\s+)?(function|const\s+\w+\s*=\s*\([^)]*\)\s*=>|async\s+function)` — "function"
  2. `^(export\s+)?(class|interface|type)\s+` — "class"
  3. `^(export\s+)?(const|let|var)\s+` — "constant"
  4. `^(export\s+)?type\s+` — "type"
  5. `^\w+\s*:\s*` — "property"
  6. `^import\s+` — "import"

None of the keyword alternatives starts with the letter `e`, so when
`export\s+` is consumable the optional group must consume it, and the
remaining match point is unique. -/

/-- Models `(export\s+)?`: consume `export` plus whitespace when present. -/
def afterExportOpt (s : List Char) : List Char :=
  match dropLit? "export".data s >>= skipWs1? with
  | some r => r
  | none => s

/-- A keyword followed by `\s+` (test-only). -/
def kwThenWs (kw : String) (s : List Char) : Bool :=
  match dropLit? kw.data s with
  | some r => headIsWs r
  | none => false

/-- Models `const\s+\w+\s*=\s*\([^)]*\)\s*=>` (test-only). -/
def constArrowTest (s : List Char) : Bool :=
  (do
    let r ← dropLit? "const".data s
    let r ← skipWs1? r
    let (_, r) ← takeWord1? r
    let r ← expectChar? '=' (skipWs r)
    let r ← expectChar? '(' (skipWs r)
    let r ← dropThroughRParen? r
    dropLit? "=>".data (skipWs r)).isSome

/-- Models `async\s+function` (test-only). -/
def asyncFunctionTest (s : List Char) : Bool :=
  (do
    let r ← dropLit? "async".data s
    let r ← skipWs1? r
    dropLit? "function".data r).isSome

/-- Pattern 1 of `guessItemType`. -/
def matchB1 (s : List Char) : Bool :=
  let r := afterExportOpt s
  (dropLit? "function".data r).isSome || constArrowTest r || asyncFunctionTest r

/-- Pattern 2 of `guessItemType`. -/
def matchB2 (s : List Char) : Bool :=
  let r := afterExportOpt s
  kwThenWs "class" r || kwThenWs "interface" r || kwThenWs "type" r

/-- Pattern 3 of `guessItemType`. -/
def matchB3 (s : List Char) : Bool :=
  let r := afterExportOpt s
  kwThenWs "const" r || kwThenWs "let" r || kwThenWs "var" r

/-- Pattern 4 of `guessItemType`. -/
def matchB4 (s : List Char) : Bool :=
  kwThenWs "type" (afterExportOpt s)

/-- Pattern 5 of `guessItemType` (`^\w+\s*:\s*`; the trailing `\s*` always
matches). -/
def matchB5 (s : List Char) : Bool :=
  match takeWord1? s with
  | some (_, r) => (expectChar? ':' (skipWs r)).isSome
  | none => false

/-- Pattern 6 of `guessItemType`. -/
def matchB6 (s : List Char) : Bool := kwThenWs "import" s

/-- Models `guessItemType`: the ordered if-chain of the source. -/
def guessItemType (context : String) : String :=
  if matchB1 context.data then "function"
  else if matchB2 context.data then "class"
  else if matchB3 context.data then "constant"
  else if matchB4 context.data then "type"
  else if matchB5 context.data then "property"
  else if matchB6 context.data then "import"
  else "unknown"

/-! ## `getContextualInfo` — the context window -/

/-- Models `String.prototype.trim`. -/
def jsTrim (s : String) : String :=
  String.mk (((s.data.dropWhile isSpaceChar).reverse.dropWhile isSpaceChar).reverse)

/-- Models `String.prototype.startsWith`. -/
def jsStartsWith (p : String) (s : String) : Bool :=
  (dropLit? p.data s.data).isSome

/-- The line filter of `getContextualInfo`: trimmed line kept when non-blank
and not comment-only. -/
def keepContextLine (l : String) : Option String :=
  let t := jsTrim l
  if t != "" && !(jsStartsWith "//" t) && !(jsStartsWith "*" t) then some t
  else none

/-- Models `getContextualInfo(lines, i)`: iterate indices from `max 0 (i-2)` up to
(excluding) `min lines.length (i+3)`, skip the annotation line `i` itself,
keep filtered trimmed lines, join with a single space. -/
def getContextualInfo (lines : List String) (deprecatedLineIndex : Nat) : String :=
  let start := deprecatedLineIndex - 2
  let stop := Nat.min lines.length (deprecatedLineIndex + 3)
  let idxs := (List.range (stop - start)).map (fun k => k + start)
  let contextLines := idxs.filterMap fun i =>
    if i = deprecatedLineIndex then none
    else
      match lines.get? i with
      | some l => keepContextLine l
      | none => none
  String.intercalate " " contextLines

/-- Modelled from the spec: the context window described by the specification
("`before` lines before, `after` lines after, annotation line itself excluded,
comment-only lines excluded, blank lines excluded, remaining lines trimmed and
joined with a single space"), with the window radii explicit. -/
def specContextWindow (lines : List String) (i before after : Nat) : String :=
  let start := i - before
  let stop := Nat.min lines.length (i + (after + 1))
  let idxs := (List.range (stop - start)).map (fun k => k + start)
  let contextLines := idxs.filterMap fun j =>
    if j = i then none
    else
      match lines.get? j with
      | some l => keepContextLine l
      | none => none
  String.intercalate " " contextLines

/-! ## `extractIdentifierName` — name extraction

Source patterns (unanchored; `match` returns the leftmost match):
  * function: `(?:function\s+(\w+)|const\s+(\w+)\s*=|(\w+)\s*\([^)]*\)\s*{)`
  * class: `(?:class|interface|type)\s+(\w+)`
  * constant: `(?:const|let|var)\s+(\w+)`
  * type: `type\s+(\w+)`
  * property: `(\w+)\s*:`
  * import: `import\s+.*?from\s+['"]([^'"]+)['"]`
  * generic fallback (used only when the kind has no entry): `(\w+)`

A matcher at a fixed start position returns the capture-group list
(`none` entries for groups left undefined by the chosen alternative). -/

def squote : Char := Char.ofNat 39

def dquote : Char := Char.ofNat 34

def lbrace : Char := Char.ofNat 123

/-- The function pattern at one position; alternatives tried in source order
(their first characters `f`/`c` and the word-run shape make the first
applicable alternative the one a backtracking engine commits to). -/
def functionTryAt (s : List Char) : Option (List (Option String)) :=
  (do
    let r ← dropLit? "function".data s
    let r ← skipWs1? r
    let (w, _) ← takeWord1? r
    pure [some w, none, none]).orElse fun _ =>
  (do
    let r ← dropLit? "const".data s
    let r ← skipWs1? r
    let (w, r) ← takeWord1? r
    let _ ← expectChar? '=' (skipWs r)
    pure [none, some w, none]).orElse fun _ =>
  (do
    let (w, r) ← takeWord1? s
    let r ← expectChar? '(' (skipWs r)
    let r ← dropThroughRParen? r
    let _ ← expectChar? lbrace (skipWs r)
    pure [none, none, some w])

/-- The class pattern at one position. -/
def classTryAt (s : List Char) : Option (List (Option String)) :=
  do
    let r ← ((dropLit? "class".data s).orElse fun _ =>
             (dropLit? "interface".data s).orElse fun _ =>
             dropLit? "type".data s)
    let r ← skipWs1? r
    let (w, _) ← takeWord1? r
    pure [some w]

/-- The constant pattern at one position. -/
def constantTryAt (s : List Char) : Option (List (Option String)) :=
  do
    let r ← ((dropLit? "const".data s).orElse fun _ =>
             (dropLit? "let".data s).orElse fun _ =>
             dropLit? "var".data s)
    let r ← skipWs1? r
    let (w, _) ← takeWord1? r
    pure [some w]

/-- The type pattern at one position. -/
def typeTryAt (s : List Char) : Option (List (Option String)) :=
  do
    let r ← dropLit? "type".data s
    let r ← skipWs1? r
    let (w, _) ← takeWord1? r
    pure [some w]

/-- The property pattern at one position. -/
def propertyTryAt (s : List Char) : Option (List (Option String)) :=
  do
    let (w, r) ← takeWord1? s
    let _ ← expectChar? ':' (skipWs r)
    pure [some w]

/-- One quote character, `['"]`. -/
def expectQuote? (s : List Char) : Option (List Char) :=
  match s with
  | [] => none
  | c :: rest => if c = squote || c = dquote then some rest else none

/-- Models `['"]([^'"]+)['"]`: a quote, then the maximal nonempty run up to the next
quote (the class cannot cross a quote), then that quote. -/
def quotedBody? (s : List Char) : Option String :=
  do
    let r ← expectQuote? s
    let body := r.takeWhile (fun c => !(c = squote || c = dquote))
    let r := r.dropWhile (fun c => !(c = squote || c = dquote))
    if body.isEmpty then none
    else
      let _ ← expectQuote? r
      pure (String.mk body)

/-- Models `from\s+['"]([^'"]+)['"]` tried at the start of `s`. -/
def importTail? (s : List Char) : Option String :=
  do
    let r ← dropLit? "from".data s
    let r ← skipWs1? r
    quotedBody? r

/-- The lazy `.*?from...` part: the earliest `from` occurrence whose tail
matches wins; if it fails, laziness extends to the next occurrence, and
shrinking the leading `\s+` never uncovers new occurrences (`from` cannot
start on a whitespace character). -/
def searchImportFrom : List Char → Option (List (Option String))
  | [] => none
  | s@(_ :: rest) =>
      ((importTail? s).map (fun w => [some w])).orElse fun _ =>
        searchImportFrom rest

/-- The import pattern `import\s+.*?from\s+['"]([^'"]+)['"]` at one position:
after `import` at least the first character must be whitespace (consumed by
`\s+`); `.*?` covers everything up to the chosen `from`. -/
def importTryAt (s : List Char) : Option (List (Option String)) :=
  do
    let r ← dropLit? "import".data s
    match r with
    | [] => none
    | c :: rest => if isSpaceChar c then searchImportFrom rest else none

/-- The generic fallback `(\w+)` at one position. -/
def genericTryAt (s : List Char) : Option (List (Option String)) :=
  (takeWord1? s).map fun wr => [some wr.1]

/-- Models `patterns[type]` of the source: the kind-specific matcher, when the kind
has one. -/
def patternFor (type : String) : Option (List Char → Option (List (Option String))) :=
  if type = "function" then some functionTryAt
  else if type = "class" then some classTryAt
  else if type = "constant" then some constantTryAt
  else if type = "type" then some typeTryAt
  else if type = "property" then some propertyTryAt
  else if type = "import" then some importTryAt
  else none

/-- Models `match.find((group, index) => index > 0 && group)`: the first defined,
non-empty capture group. -/
def firstNonEmptyGroup (groups : List (Option String)) : Option String :=
  groups.findSome? fun g =>
    match g with
    | some w => if w != "" then some w else none
    | none => none

/-- Models `extractIdentifierName(context, type)`: `patterns[type] || /(\w+)/`, one
leftmost match, first non-empty capture group, `'unknown'` on failure. -/
def extractIdentifierName (context type : String) : String :=
  let tryAt := (patternFor type).getD genericTryAt
  match scanLeft tryAt context.data with
  | some groups => (firstNonEmptyGroup groups).getD "unknown"
  | none => "unknown"

/-- Modelled from the spec: name extraction as the specification words it —
the kind-specific pattern first, and "if no pattern matches, a generic
first-word pattern is used as a last resort; total failure yields the literal
name `unknown`". -/
def specExtractIdentifierName (context type : String) : String :=
  match patternFor type with
  | some tryAt =>
      match scanLeft tryAt context.data with
      | some groups => (firstNonEmptyGroup groups).getD "unknown"
      | none =>
          match scanLeft genericTryAt context.data with
          | some groups => (firstNonEmptyGroup groups).getD "unknown"
          | none => "unknown"
  | none =>
      match scanLeft genericTryAt context.data with
      | some groups => (firstNonEmptyGroup groups).getD "unknown"
      | none => "unknown"

/-! ## Scanner — `DEPRECATED_PATTERNS` and `findDeprecatedItems`

The three patterns (flags `gi`, `lastIndex` reset and `exec` called once per
pattern per line):
  1. `@deprecated\s+(.+?)(?:\n|$|\*\/)`
  2. `\/\*\*[\s\S]*?@deprecated[\s\S]*?\*\//`
  3. `\/\/\s*@deprecated\s+(.+)`
Lines contain no `\n`, so the `\n` terminator alternative never fires and `.`
matches every remaining character. -/

/-- An element of the `items` array built by `findDeprecatedItems`. -/
structure RawItem where
  file : String
  line : Nat
  reason : String
  context : String
  type : String
  fullMatch : String
deriving DecidableEq

/-- Number of extra characters a lazy `(.+?)` takes after its mandatory first
character: extend until end of input or a `*/` terminator. -/
def lazyBodyExt : List Char → Nat
  | [] => 0
  | c :: rest =>
      if (dropLit? "*/".data (c :: rest)).isSome then 0 else 1 + lazyBodyExt rest

/-- Pattern 1 at one position.  `\s+` is explored longest-first and `(.+?)`
shortest-first; when at least one non-space character follows the whitespace
run the body starts there, otherwise the engine gives back one whitespace
character to serve as the body (possible only when the run has length at
least two).  Returns `(match[0], match[1])`. -/
def p1TryAt (s : List Char) : Option (String × Option String) :=
  do
    let r ← dropLitCI? "@deprecated".data s
    match r with
    | [] => none
    | c :: _ =>
      if !isSpaceChar c then none
      else
        let wsLen := (r.takeWhile isSpaceChar).length
        let z := r.dropWhile isSpaceChar
        match z with
        | [] =>
            if wsLen ≥ 2 then
              some (String.mk (s.take (11 + wsLen)),
                    some (String.mk [(r.takeWhile isSpaceChar).getLastD ' ']))
            else none
        | zc :: zrest =>
            let bLen := 1 + lazyBodyExt zrest
            let term := if (dropLit? "*/".data ((zc :: zrest).drop bLen)).isSome then 2 else 0
            some (String.mk (s.take (11 + wsLen + bLen + term)),
                  some (String.mk ((zc :: zrest).take bLen)))

/-- Find the earliest (case-insensitive) occurrence of a literal; returns the
number of characters before it and the remainder after it. -/
def findLitCI? (lit : List Char) : List Char → Option (Nat × List Char)
  | [] => (dropLitCI? lit []).map (fun r => (0, r))
  | s@(_ :: rest) =>
      match dropLitCI? lit s with
      | some r => some (0, r)
      | none => (findLitCI? lit rest).map (fun nr => (nr.1 + 1, nr.2))

/-- Pattern 2 at one position: `/**`, then (lazy) the earliest `@deprecated`,
then (lazy) the earliest `*/`.  A later choice for either lazy part can only
succeed if the earliest does, because the closing `*/` search space only
shrinks.  No capture group, so `match[1]` is undefined. -/
def p2TryAt (s : List Char) : Option (String × Option String) :=
  do
    let r ← dropLit? "/**".data s
    let (n₁, r₂) ← findLitCI? "@deprecated".data r
    let (n₂, _) ← findLitCI? "*/".data r₂
    pure (String.mk (s.take (3 + n₁ + 11 + n₂ + 2)), (none : Option String))

/-- Pattern 3 at one position: `//`, `\s*`, `@deprecated`, then `\s+(.+)` —
the greedy body is everything to the end of the line (with the same one-space
give-back as pattern 1 when nothing follows the whitespace run).  The match
always extends to the end of the line. -/
def p3TryAt (s : List Char) : Option (String × Option String) :=
  do
    let r ← dropLit? "//".data s
    let r₂ := skipWs r
    let r₃ ← dropLitCI? "@deprecated".data r₂
    match r₃ with
    | [] => none
    | c :: _ =>
      if !isSpaceChar c then none
      else
        let z := r₃.dropWhile isSpaceChar
        match z with
        | [] =>
            if (r₃.takeWhile isSpaceChar).length ≥ 2 then
              some (String.mk s, some (String.mk [(r₃.takeWhile isSpaceChar).getLastD ' ']))
            else none
        | _ :: _ => some (String.mk s, some (String.mk z))

/-- Models `content.split('\n')`. -/
def splitNl : List Char → List (List Char)
  | [] => [[]]
  | c :: r =>
      if c = '\n' then [] :: splitNl r
      else
        match splitNl r with
        | [] => [[c]]
        | l :: ls => (c :: l) :: ls

/-- Models `match[1]?.trim() || 'No reason provided'`. -/
def reasonOfGroup (g : Option String) : String :=
  match g with
  | some w => if jsTrim w = "" then "No reason provided" else jsTrim w
  | none => "No reason provided"

/-- The per-line, per-pattern body of `findDeprecatedItems`: one `exec` per
pattern (cursor reset), one pushed item per matching pattern. -/
def lineItems (lines : List String) (filePath : String) (i : Nat) (line : String) :
    List RawItem :=
  [p1TryAt, p2TryAt, p3TryAt].filterMap fun pat =>
    match scanLeft pat line.data with
    | some (full, g1) =>
        let context := getContextualInfo lines i
        some { file := filePath, line := i + 1, reason := reasonOfGroup g1,
               context := context, type := guessItemType context,
               fullMatch := full }
    | none => none

/-- Models `findDeprecatedItems(content, filePath)`. -/
def findDeprecatedItems (content filePath : String) : List RawItem :=
  let lines := (splitNl content.data).map String.mk
  (List.range lines.length).flatMap fun i =>
    lineItems lines filePath i (lines.getD i "")

/-- The constructor state `this.deprecatedApis`. -/
def initDeprecatedApis : List (String × List DeprecatedApi) :=
  [("functions", []), ("classes", []), ("properties", []), ("constants", []),
   ("types", []), ("imports", [])]

/-- The category key chosen by `categorizeDeprecatedItem`. -/
def categoryFor (type : String) : String :=
  if type = "unknown" then "functions" else type ++ "s"

/-- The registry entry pushed by `categorizeDeprecatedItem`. -/
def mkEntry (item : RawItem) : DeprecatedApi :=
  { name := extractIdentifierName item.context item.type,
    reason := item.reason, file := item.file, line := item.line,
    context := item.context }

/-- Models `categorizeDeprecatedItem`: create the category array when missing, then
push the entry. -/
def categorizeDeprecatedItem (state : List (String × List DeprecatedApi))
    (item : RawItem) : List (String × List DeprecatedApi) :=
  assocPush state (categoryFor item.type) (mkEntry item)

/-- Models `getTotalCount`. -/
def getTotalCount (state : List (String × List DeprecatedApi)) : Nat :=
  state.foldl (fun total cat => total + cat.2.length) 0

/-- Models `scanFile`: the whole body runs under `try`; a read failure is logged and
leaves the accumulated state untouched.  The file-system read is modelled as
an `Except` value and `this.getRelativePath` (a pure function of the
configured roots and the path library) as an abstract `relPath`. -/
def scanFile (relPath : String → String)
    (state : List (String × List DeprecatedApi)) (filePath : String)
    (readResult : Except String String) : List (String × List DeprecatedApi) :=
  match readResult with
  | .error _ => state
  | .ok content =>
      (findDeprecatedItems content (relPath filePath)).foldl
        categorizeDeprecatedItem state

/-- The per-directory loop over files, each with its read outcome. -/
def scanFiles (relPath : String → String)
    (state : List (String × List DeprecatedApi))
    (files : List (String × Except String String)) :
    List (String × List DeprecatedApi) :=
  files.foldl (fun st f => scanFile relPath st f.1 f.2) state


/-- Substring test used to reason about pattern 2: does the literal occur
anywhere in the line? -/
def containsLit (pat : List Char) : List Char → Bool
  | [] => (dropLit? pat []).isSome
  | s@(_ :: rest) => (dropLit? pat s).isSome || containsLit pat rest

/-- A registry entry whose lowercased name collides with the built-in `Map`. -/
def mapApi : DeprecatedApi :=
  { name := "Map", reason := "No reason provided", file := "scripts/app.ts",
    line := 9, context := "export class Map extends Node" }

def mapLookup : List (String × List (DeprecatedApi × String)) :=
  buildLookup { extractedAt := "", totalCount := 1, sources := [],
                deprecatedApis := [("classs", [mapApi])] }

/-- A concrete extracted item used by witnesses. -/
def demoRaw : RawItem :=
  { file := "scripts/app.ts", line := 3, reason := "Use serializeGraph",
    context := "export function serialise(graph)", type := "function",
    fullMatch := "@deprecated Use serializeGraph" }

/-! ## Association-list lemmas -/

theorem assocGet_assocPush_self {α : Type} (m : List (String × List α))
    (key : String) (a : α) :
    assocGet (assocPush m key a) key = assocGet m key ++ [a] := by
  induction m with
  | nil => simp [assocPush, assocGet]
  | cons kv rest ih =>
      by_cases h : kv.1 = key
      · simp [assocPush, assocGet, h]
      · simp [assocPush, assocGet, h, ih]

theorem assocGet_assocPush_other {α : Type} (m : List (String × List α))
    (key k : String) (a : α) (h : k ≠ key) :
    assocGet (assocPush m key a) k = assocGet m k := by
  induction m with
  | nil => simp [assocPush, assocGet, Ne.symm h]
  | cons kv rest ih =>
      by_cases hk : kv.1 = key
      · simp [assocPush, assocGet, hk, Ne.symm h]
      · by_cases hk2 : kv.1 = k <;> simp [assocPush, assocGet, hk, hk2, h, ih]

/-! ## Claim C1

The rule destructures `severity` from its options but never consults it
afterwards: `context.report` is invoked on every non-ignored hit for every
severity value, including `"off"`, and no severity level is attached to the
emitted diagnostic. -/

/-- Claim C1: `checkIdentifier` is oblivious to the `severity` option — its
output is identical for any two severity values — and with
`severity = "off"` a hit on the registry entry `serialise` still emits a
diagnostic, contradicting "with severity off, zero diagnostics are
emitted". -/
theorem c1_severity_never_consulted :
    (∀ (eng : RegexEngine) (lookup : List (String × List (DeprecatedApi × String)))
      (name sev₁ sev₂ : String) (ip : List String) (sc : Bool),
      checkIdentifier eng ⟨sev₁, ip, sc⟩ lookup name =
        checkIdentifier eng ⟨sev₂, ip, sc⟩ lookup name) ∧
    checkIdentifier demoEngine ⟨"off", [], true⟩ demoLookup "serialise" =
      some { messageId := "deprecatedApiWithContext", name := "serialise",
             reason := "Reason: Use serializeGraph",
             file := "utils/vintageClipboard.ts", line := "5" } := by
  constructor
  · intro eng lookup name sev₁ sev₂ ip sc
    rfl
  · decide

/-! ## Claim C2 -/

/-- Claim C2: on a non-ignored, non-built-in hit, `checkIdentifier` emits
exactly the diagnostic rendered from the first record of the index's
insertion-ordered list, and every occurrence node in a file is reported
independently (no deduplication across occurrences). -/
theorem c2_first_record_per_occurrence (eng : RegexEngine) (opts : RuleOptions)
    (lookup : List (String × List (DeprecatedApi × String))) (name : String)
    (first : DeprecatedApi × String) (rest : List (DeprecatedApi × String))
    (pre post : List String)
    (hhit : assocGet lookup (lowerStr name) = first :: rest)
    (hbi : builtIns.contains name = false)
    (hig : isIgnored eng opts name = false) :
    checkIdentifier eng opts lookup name = some (renderDiag opts name first.1) ∧
    runRule eng opts lookup (pre ++ name :: post) =
      runRule eng opts lookup pre ++
        renderDiag opts name first.1 :: runRule eng opts lookup post := by
  have hbi2 : name ∉ builtIns := by simpa using hbi
  have h1 : checkIdentifier eng opts lookup name = some (renderDiag opts name first.1) := by
    simp [checkIdentifier, hbi2, hhit, reportDeprecated, hig]
  refine ⟨h1, ?_⟩
  simp [runRule, List.filterMap_append, List.filterMap_cons, h1]

/-- Witness for C2 at a concrete registry, an occurrence list containing the
hit twice, and the default options. -/
theorem c2_witness :
    checkIdentifier demoEngine ⟨"warn", [], true⟩ demoLookup "serialise" =
      some (renderDiag ⟨"warn", [], true⟩ "serialise" demoApi) ∧
    runRule demoEngine ⟨"warn", [], true⟩ demoLookup
        (["app"] ++ "serialise" :: ["serialise"]) =
      runRule demoEngine ⟨"warn", [], true⟩ demoLookup ["app"] ++
        renderDiag ⟨"warn", [], true⟩ "serialise" demoApi ::
          runRule demoEngine ⟨"warn", [], true⟩ demoLookup ["serialise"] :=
  c2_first_record_per_occurrence demoEngine ⟨"warn", [], true⟩ demoLookup
    "serialise" (demoApi, "functions") [] ["app"] ["serialise"]
    (by decide) (by decide) (by decide)

/-! ## Claim C3

The case-insensitive lookup is preceded by a case-sensitive built-in
exclusion, so the decision to report is not invariant under recasing when
one casing collides with a built-in name. -/

/-- Counterexample to C3: `map` and `Map` lowercase to the same registry key
`map`, yet the occurrence `map` is reported and the occurrence `Map` is not
(the built-in exclusion is case-sensitive and runs before the lookup), so the
decision to report is not invariant under recasing. -/
theorem c3_counterexample :
    lowerStr "map" = "map" ∧ lowerStr "Map" = "map" ∧
    assocGet mapLookup "map" ≠ [] ∧
    checkIdentifier demoEngine ⟨"warn", [], true⟩ mapLookup "map" ≠ none ∧
    checkIdentifier demoEngine ⟨"warn", [], true⟩ mapLookup "Map" = none := by
  refine ⟨by decide, by decide, by decide, by decide, by decide⟩

/-- Claim C3 (amended): for identifiers outside the nine built-in names and
with no ignore patterns configured, the decision to report depends only on
the lowercased identifier, and a registry hit triggers exactly one
diagnostic. -/
theorem c3_case_insensitive_outside_builtins (eng : RegexEngine)
    (lookup : List (String × List (DeprecatedApi × String)))
    (sev : String) (sc : Bool) (n₁ n₂ : String)
    (hl : lowerStr n₁ = lowerStr n₂)
    (h₁ : builtIns.contains n₁ = false) (h₂ : builtIns.contains n₂ = false) :
    ((checkIdentifier eng ⟨sev, [], sc⟩ lookup n₁).isSome =
      (checkIdentifier eng ⟨sev, [], sc⟩ lookup n₂).isSome) ∧
    (assocGet lookup (lowerStr n₁) ≠ [] →
      (checkIdentifier eng ⟨sev, [], sc⟩ lookup n₁).isSome = true) := by
  have hb₁ : n₁ ∉ builtIns := by simpa using h₁
  have hb₂ : n₂ ∉ builtIns := by simpa using h₂
  have hig : ∀ n : String, isIgnored eng ⟨sev, [], sc⟩ n = false := fun _ => rfl
  constructor
  · simp only [checkIdentifier, hl]
    cases hg : assocGet lookup (lowerStr n₂) with
    | nil => simp [hb₁, hb₂, hg]
    | cons first rest => simp [hb₁, hb₂, hg, reportDeprecated, hig]
  · intro hne
    cases hg : assocGet lookup (lowerStr n₁) with
    | nil => exact absurd hg hne
    | cons first rest => simp [checkIdentifier, hb₁, hg, reportDeprecated, hig]

/-- Witness for C3 (amended) at the colliding registry with two casings that
both avoid the built-in set. -/
theorem c3_witness :
    ((checkIdentifier demoEngine ⟨"warn", [], true⟩ mapLookup "map").isSome =
      (checkIdentifier demoEngine ⟨"warn", [], true⟩ mapLookup "mAp").isSome) ∧
    (assocGet mapLookup (lowerStr "map") ≠ [] →
      (checkIdentifier demoEngine ⟨"warn", [], true⟩ mapLookup "map").isSome = true) :=
  c3_case_insensitive_outside_builtins demoEngine mapLookup "warn" true
    "map" "mAp" (by decide) (by decide) (by decide)

/-! ## Claim C6 -/

/-- Claim C6: each ignore pattern that compiles is tested as a regex against
the identifier name; one that fails to compile falls back to exact string
equality without affecting the remaining patterns; and any single match
suppresses the diagnostic for the occurrence. -/
theorem c6_ignore_pattern_fallback (eng : RegexEngine) (sev : String)
    (sc : Bool) (name p : String) (ps : List String) :
    (eng.compile p = none →
      isIgnored eng ⟨sev, p :: ps, sc⟩ name =
        ((p == name) || isIgnored eng ⟨sev, ps, sc⟩ name)) ∧
    (∀ test, eng.compile p = some test →
      isIgnored eng ⟨sev, p :: ps, sc⟩ name =
        (test name || isIgnored eng ⟨sev, ps, sc⟩ name)) ∧
    (∀ (opts : RuleOptions) (info : DeprecatedApi),
      isIgnored eng opts name = true →
      reportDeprecated eng opts name info = none) := by
  refine ⟨?_, ?_, ?_⟩
  · intro h
    simp [isIgnored, h]
  · intro test h
    simp [isIgnored, h]
  · intro opts info h
    simp [reportDeprecated, h]

/-- Witness for C6: the demo engine rejects the pattern `"("` (fallback to
equality, remaining pattern untouched), compiles `"serialise"`, and a
matching pattern suppresses the report. -/
theorem c6_witness :
    (isIgnored demoEngine ⟨"warn", "(" :: ["serialise"], true⟩ "serialise" =
      (("(" == "serialise") ||
        isIgnored demoEngine ⟨"warn", ["serialise"], true⟩ "serialise")) ∧
    reportDeprecated demoEngine ⟨"warn", ["serialise"], true⟩ "serialise" demoApi
      = none :=
  ⟨(c6_ignore_pattern_fallback demoEngine "warn" true "serialise" "("
      ["serialise"]).1 rfl,
   (c6_ignore_pattern_fallback demoEngine "warn" true "serialise" "("
      ["serialise"]).2.2 ⟨"warn", ["serialise"], true⟩ demoApi (by decide)⟩

/-! ## Claim C4

The source loop runs from `max(0, i-2)` up to `min(len, i+3)` *exclusive*, so
the window covers the two lines before and the two lines after the hit — not
three after. -/

/-- Counterexample to C4: with the annotation at index 2 of a six-line file,
the third line after the hit (`"f"`, index 5) is not part of the context,
while the claimed window of 2-before/3-after would include it. -/
theorem c4_counterexample :
    getContextualInfo ["a", "b", "c", "d", "e", "f"] 2 ≠
      specContextWindow ["a", "b", "c", "d", "e", "f"] 2 2 3 ∧
    getContextualInfo ["a", "b", "c", "d", "e", "f"] 2 = "a b d e" ∧
    specContextWindow ["a", "b", "c", "d", "e", "f"] 2 2 3 = "a b d e f" := by
  refine ⟨by decide, by decide, by decide⟩

/-- Claim C4 (amended): the context passed to the identifier extractor is
built from exactly the 2 lines before and the 2 lines after the annotation
line (annotation line excluded, comment-only and blank lines excluded,
remaining lines trimmed and joined with a single space). -/
theorem c4_context_window (lines : List String) (i : Nat) :
    getContextualInfo lines i = specContextWindow lines i 2 2 :=
  rfl

/-! ## Claim C5

`patterns[type] || /(\w+)/` selects the generic pattern only when the *kind*
has no entry in the pattern table (i.e. kind `unknown`); when the
kind-specific pattern exists but fails to match, the source returns
`'unknown'` immediately without consulting the generic pattern. -/

/-- Counterexample to C5: for context `"function"` with kind `function`, the
kind-specific pattern fails, the code returns `"unknown"`, while the claimed
generic-fallback algorithm would extract `"function"`. -/
theorem c5_counterexample :
    extractIdentifierName "function" "function" = "unknown" ∧
    specExtractIdentifierName "function" "function" = "function" ∧
    extractIdentifierName "function" "function" ≠
      specExtractIdentifierName "function" "function" := by
  refine ⟨by decide, by decide, by decide⟩

/-- Claim C5 (amended): name extraction uses the first non-empty capture
group of the selected pattern, and agrees with the specification's
generic-fallback algorithm except that a failing kind-specific pattern yields
`"unknown"` directly: whenever the kind has no specific pattern or the
kind-specific pattern matches, the two algorithms coincide. -/
theorem c5_no_generic_retry (context type : String)
    (h : patternFor type = none ∨
      ∃ f, patternFor type = some f ∧ scanLeft f context.data ≠ none) :
    extractIdentifierName context type = specExtractIdentifierName context type := by
  rcases h with h | ⟨f, hf, hm⟩
  · simp [extractIdentifierName, specExtractIdentifierName, h]
  · cases hsc : scanLeft f context.data with
    | none => exact absurd hsc hm
    | some groups =>
        simp [extractIdentifierName, specExtractIdentifierName, hf, hsc]

/-- Witness for C5 (amended): the class pattern matches the context, and both
algorithms extract the same name. -/
theorem c5_witness :
    extractIdentifierName "class Foo extends Bar" "class" =
      specExtractIdentifierName "class Foo extends Bar" "class" :=
  c5_no_generic_retry "class Foo extends Bar" "class"
    (Or.inr ⟨classTryAt, rfl, by decide⟩)

/-! ## Claim C7 -/

/-- Claim C7: the registry category key is the item kind with `"s"` appended
(`function` → `functions`, `class` → `classs`, `property` → `propertys`),
except that kind `unknown` is always filed under `functions`; and
`categorizeDeprecatedItem` appends the new entry to exactly that category,
leaving every other category untouched. -/
theorem c7_category_pluralization :
    categoryFor "function" = "functions" ∧
    categoryFor "class" = "classs" ∧
    categoryFor "property" = "propertys" ∧
    categoryFor "unknown" = "functions" ∧
    (∀ k, k ≠ "unknown" → categoryFor k = k ++ "s") ∧
    (∀ (st : List (String × List DeprecatedApi)) (it : RawItem),
      assocGet (categorizeDeprecatedItem st it) (categoryFor it.type) =
        assocGet st (categoryFor it.type) ++ [mkEntry it] ∧
      ∀ k, k ≠ categoryFor it.type →
        assocGet (categorizeDeprecatedItem st it) k = assocGet st k) := by
  refine ⟨rfl, rfl, rfl, rfl, ?_, ?_⟩
  · intro k hk
    simp [categoryFor, hk]
  · intro st it
    exact ⟨assocGet_assocPush_self st (categoryFor it.type) (mkEntry it),
           fun k hk => assocGet_assocPush_other st (categoryFor it.type) k
             (mkEntry it) hk⟩

/-- Witness for C7 at a concrete kind and state. -/
theorem c7_witness :
    categoryFor "import" = "import" ++ "s" ∧
    assocGet (categorizeDeprecatedItem initDeprecatedApis demoRaw) "types" =
      assocGet initDeprecatedApis "types" :=
  ⟨c7_category_pluralization.2.2.2.2.1 "import" (by decide),
   (c7_category_pluralization.2.2.2.2.2 initDeprecatedApis demoRaw).2 "types"
     (by decide)⟩

/-! ## Claim C8 -/

/-- Claim C8: a failing per-file read is absorbed by the `try`/`catch` —
the state accumulated so far passes through unchanged — and the whole scan
equals the scan of the successfully-read files alone, so a per-file failure
never aborts the extraction nor disturbs the items collected from other
files. -/
theorem c8_scan_survives_file_errors (relPath : String → String)
    (st : List (String × List DeprecatedApi))
    (files : List (String × Except String String)) :
    scanFiles relPath st files =
      scanFiles relPath st (files.filter fun f => f.2.isOk) ∧
    (∀ p e, scanFile relPath st p (Except.error e) = st) := by
  refine ⟨?_, fun p e => rfl⟩
  induction files generalizing st with
  | nil => rfl
  | cons f rest ih =>
      cases hr : f.2 with
      | error e =>
          simp [scanFiles, List.filter, hr, scanFile, Except.isOk, Except.toBool]
          exact ih st
      | ok content =>
          simp [scanFiles, List.filter, hr, Except.isOk, Except.toBool]
          exact ih _

/-! ## Claim C9

Pattern 4 (`^(export\s+)?type\s+`) is subsumed by pattern 2
(`^(export\s+)?(class|interface|type)\s+`), which is tested first. -/

theorem matchB4_imp_matchB2 (s : List Char) (h : matchB4 s = true) :
    matchB2 s = true := by
  simp only [matchB4] at h
  simp [matchB2, h]

/-- Every value `guessItemType` can return. -/
theorem guessItemType_mem (context : String) :
    guessItemType context ∈
      (["function", "class", "constant", "property", "import", "unknown"] :
        List String) := by
  simp only [guessItemType]
  split_ifs with h1 h2 h3 h4 h5 h6 <;> try decide
  exact absurd (matchB4_imp_matchB2 _ h4) h2

/-- The kinds `guessItemType` actually produces never select the `types`
category. -/
theorem categoryFor_ne_types_of_mem :
    ∀ t ∈ (["function", "class", "constant", "property", "import", "unknown"] :
      List String), categoryFor t ≠ "types" := by decide

theorem assocGet_types_foldl_categorize (items : List RawItem) :
    ∀ st : List (String × List DeprecatedApi),
      (∀ it ∈ items, categoryFor it.type ≠ "types") →
      assocGet (items.foldl categorizeDeprecatedItem st) "types" =
        assocGet st "types" := by
  induction items with
  | nil => intro st _; rfl
  | cons it rest ih =>
      intro st h
      have hit : categoryFor it.type ≠ "types" := h it (List.mem_cons_self it rest)
      calc assocGet ((it :: rest).foldl categorizeDeprecatedItem st) "types"
          = assocGet (rest.foldl categorizeDeprecatedItem
              (categorizeDeprecatedItem st it)) "types" := rfl
        _ = assocGet (categorizeDeprecatedItem st it) "types" :=
            ih _ (fun x hx => h x (List.mem_cons_of_mem it hx))
        _ = assocGet st "types" :=
            assocGet_assocPush_other st (categoryFor it.type) "types"
              (mkEntry it) (Ne.symm hit)

/-- Claim C9: the kind classifier never returns `"type"` (the explicit
type-alias branch is unreachable, being subsumed by the earlier
class/interface/type branch), and consequently any extraction whose item
kinds come from `guessItemType` leaves the registry's `types` category
empty. -/
theorem c9_type_branch_unreachable :
    (∀ context : String, guessItemType context ≠ "type") ∧
    (∀ items : List RawItem,
      (∀ it ∈ items, it.type = guessItemType it.context) →
      assocGet (items.foldl categorizeDeprecatedItem initDeprecatedApis)
        "types" = []) := by
  constructor
  · intro context
    simp only [guessItemType]
    split_ifs with h1 h2 h3 h4 h5 h6 <;> try decide
    exact absurd (matchB4_imp_matchB2 _ h4) h2
  · intro items h
    have hall : ∀ it ∈ items, categoryFor it.type ≠ "types" := by
      intro it hit
      rw [h it hit]
      exact categoryFor_ne_types_of_mem _ (guessItemType_mem it.context)
    rw [assocGet_types_foldl_categorize items initDeprecatedApis hall]
    rfl

/-- Witness for C9 at a concrete pipeline-produced item list. -/
theorem c9_witness :
    assocGet ([{ file := "a.ts", line := 2, reason := "r",
                 context := "class Foo extends Node", type := "class",
                 fullMatch := "@deprecated r" }].foldl
        categorizeDeprecatedItem initDeprecatedApis) "types" = [] :=
  c9_type_branch_unreachable.2 _ (by decide)

/-! ## Claim C10

On a line `// @deprecated <text>`, pattern 1 (the leading-marker form) and
pattern 3 (the single-line-comment form) both match, pattern 2 (the block
form) does not, and `findDeprecatedItems` pushes one item per matching
pattern per line. -/

theorem scanLeft_cons {α : Type} (f : List Char → Option α) (c : Char)
    (l : List Char) :
    scanLeft f (c :: l) = (f (c :: l)).orElse (fun _ => scanLeft f l) := rfl

theorem p1Tail (t : List Char) (hne : t ≠ []) :
    (p1TryAt ('@' :: 'd' :: 'e' :: 'p' :: 'r' :: 'e' :: 'c' :: 'a' :: 't' :: 'e' :: 'd' :: ' ' ::t)).isSome
      = true := by
  have hd : dropLitCI? ['@','d','e','p','r','e','c','a','t','e','d']
      ('@' :: 'd' :: 'e' :: 'p' :: 'r' :: 'e' :: 'c' :: 'a' :: 't' :: 'e' :: 'd' :: ' ' ::t) = some (' ' ::t) := rfl
  cases hz : t.dropWhile isSpaceChar with
  | nil =>
      have htw : t.takeWhile isSpaceChar = t := by
        conv_rhs => rw [← List.takeWhile_append_dropWhile (p := isSpaceChar) (l := t)]
        rw [hz, List.append_nil]
      have hlen : (t.takeWhile isSpaceChar).length + 1 ≥ 2 := by
        rw [htw]
        have : t.length ≥ 1 := by
          cases t with
          | nil => exact absurd rfl hne
          | cons a b => simp
        omega
      simp only [p1TryAt]
      simp [hd, List.dropWhile, List.takeWhile, isSpaceChar, hz, htw, hlen]
      have hpos : 0 < t.length := List.length_pos.mpr hne
      omega
  | cons zc zrest =>
      simp only [p1TryAt]
      simp [hd, List.dropWhile, List.takeWhile, isSpaceChar, hz]

theorem p3Whole (t : List Char) (hne : t ≠ []) :
    (p3TryAt
      ('/' :: '/' :: ' ' :: '@' :: 'd' :: 'e' :: 'p' :: 'r' :: 'e' :: 'c' :: 'a' :: 't' :: 'e' :: 'd' :: ' ' ::t)).isSome
      = true := by
  have hd : dropLitCI? ['@','d','e','p','r','e','c','a','t','e','d']
      ('@' :: 'd' :: 'e' :: 'p' :: 'r' :: 'e' :: 'c' :: 'a' :: 't' :: 'e' :: 'd' :: ' ' ::t) = some (' ' ::t) := rfl
  have h2a : dropLit? ['/', '/']
      ('/' :: '/' :: ' ' :: '@' :: 'd' :: 'e' :: 'p' :: 'r' :: 'e' :: 'c' :: 'a' :: 't' :: 'e' :: 'd' :: ' ' ::t) =
      some (' ' :: '@' :: 'd' :: 'e' :: 'p' :: 'r' :: 'e' :: 'c' :: 'a' :: 't' :: 'e' :: 'd' :: ' ' ::t) := rfl
  have h2b : List.dropWhile isSpaceChar
      (' ' :: '@' :: 'd' :: 'e' :: 'p' :: 'r' :: 'e' :: 'c' :: 'a' :: 't' :: 'e' :: 'd' :: ' ' ::t) =
      ('@' :: 'd' :: 'e' :: 'p' :: 'r' :: 'e' :: 'c' :: 'a' :: 't' :: 'e' :: 'd' :: ' ' ::t) := rfl
  cases hz : t.dropWhile isSpaceChar with
  | nil =>
      have htw : t.takeWhile isSpaceChar = t := by
        conv_rhs => rw [← List.takeWhile_append_dropWhile (p := isSpaceChar) (l := t)]
        rw [hz, List.append_nil]
      simp only [p3TryAt, skipWs]
      simp [h2a, h2b, hd, List.dropWhile, List.takeWhile, isSpaceChar, hz, htw]
      have hpos : 0 < t.length := List.length_pos.mpr hne
      omega
  | cons zc zrest =>
      simp only [p3TryAt, skipWs]
      simp [h2a, h2b, hd, List.dropWhile, List.takeWhile, isSpaceChar, hz]

theorem scanLine_p1 (t : List Char) (hne : t ≠ []) :
    (scanLeft p1TryAt
      ('/' :: '/' :: ' ' :: '@' :: 'd' :: 'e' :: 'p' :: 'r' :: 'e' :: 'c' :: 'a' :: 't' :: 'e' :: 'd' :: ' ' ::t)).isSome
      = true := by
  obtain ⟨v, hv⟩ := Option.isSome_iff_exists.mp (p1Tail t hne)
  show ((p1TryAt ('@' :: 'd' :: 'e' :: 'p' :: 'r' :: 'e' :: 'c' :: 'a' :: 't' :: 'e' :: 'd' :: ' ' ::t)).orElse
    (fun _ => scanLeft p1TryAt
      ('d' :: 'e' :: 'p' :: 'r' :: 'e' :: 'c' :: 'a' :: 't' :: 'e' :: 'd' :: ' ' ::t))).isSome = true
  rw [hv]
  rfl

theorem scanLine_p3 (t : List Char) (hne : t ≠ []) :
    (scanLeft p3TryAt
      ('/' :: '/' :: ' ' :: '@' :: 'd' :: 'e' :: 'p' :: 'r' :: 'e' :: 'c' :: 'a' :: 't' :: 'e' :: 'd' :: ' ' ::t)).isSome
      = true := by
  obtain ⟨v, hv⟩ := Option.isSome_iff_exists.mp (p3Whole t hne)
  show ((p3TryAt
    ('/' :: '/' :: ' ' :: '@' :: 'd' :: 'e' :: 'p' :: 'r' :: 'e' :: 'c' :: 'a' :: 't' :: 'e' :: 'd' :: ' ' ::t)).orElse
    (fun _ => scanLeft p3TryAt
      ('/' :: ' ' :: '@' :: 'd' :: 'e' :: 'p' :: 'r' :: 'e' :: 'c' :: 'a' :: 't' :: 'e' :: 'd' :: ' ' ::t))).isSome = true
  rw [hv]
  rfl

theorem scanLeft_none_of_lit (f : List Char → Option (String × Option String))
    (pat : List Char) (hf : ∀ s, dropLit? pat s = none → f s = none) :
    ∀ l, containsLit pat l = false → scanLeft f l = none := by
  intro l
  induction l with
  | nil =>
      intro h
      cases hd : dropLit? pat ([] : List Char) with
      | none => exact hf [] hd
      | some r => simp [containsLit, hd] at h
  | cons c rest ih =>
      intro h
      simp only [containsLit, Bool.or_eq_false_iff] at h
      have h1 : f (c :: rest) = none := by
        cases hd : dropLit? pat (c :: rest) with
        | none => exact hf _ hd
        | some r => simp [hd] at h
      rw [scanLeft_cons, h1]
      simpa [Option.orElse] using ih h.2

theorem p2TryAt_none (s : List Char) (h : dropLit? "/**".data s = none) :
    p2TryAt s = none := by
  simp [p2TryAt, h]

theorem splitNl_no_nl (l : List Char) (h : ∀ c ∈ l, c ≠ '\n') :
    splitNl l = [l] := by
  induction l with
  | nil => rfl
  | cons c r ih =>
      have hc : c ≠ '\n' := h c (List.mem_cons_self c r)
      have hr := ih (fun x hx => h x (List.mem_cons_of_mem _ hx))
      simp [splitNl, hc, hr]

theorem getTotalCount_go (m : List (String × List DeprecatedApi)) :
    ∀ n : Nat, m.foldl (fun total cat => total + cat.2.length) n =
      n + m.foldl (fun total cat => total + cat.2.length) 0 := by
  induction m with
  | nil => intro n; simp
  | cons kv rest ih =>
      intro n
      simp only [List.foldl]
      rw [ih (n + kv.2.length), ih (0 + kv.2.length)]
      omega

theorem getTotalCount_assocPush (m : List (String × List DeprecatedApi))
    (key : String) (a : DeprecatedApi) :
    getTotalCount (assocPush m key a) = getTotalCount m + 1 := by
  induction m with
  | nil => rfl
  | cons kv rest ih =>
      by_cases h : kv.1 = key
      · simp only [assocPush, getTotalCount, h, if_pos rfl, List.foldl]
        rw [getTotalCount_go rest, getTotalCount_go rest (0 + kv.2.length)]
        simp
        omega
      · simp only [assocPush, getTotalCount, List.foldl] at *
        rw [if_neg h]
        simp only [List.foldl]
        rw [getTotalCount_go (assocPush rest key a), getTotalCount_go rest]
        omega

theorem getTotalCount_categorize (st : List (String × List DeprecatedApi))
    (it : RawItem) :
    getTotalCount (categorizeDeprecatedItem st it) = getTotalCount st + 1 :=
  getTotalCount_assocPush st (categoryFor it.type) (mkEntry it)

/-- Claim C10: for every physical line `// @deprecated <text>` (with
non-empty single-line text and no block-comment marker inside), the
leading-marker pattern and the single-line-comment pattern both match the
line while the block pattern does not, so the scanner pushes exactly two
items for the single annotation and the registry built from them records two
entries. -/
theorem c10_single_line_double_report (text fp : String)
    (hne : text.data ≠ [])
    (hnl : ∀ c ∈ text.data, c ≠ '\n')
    (hss : containsLit "/**".data text.data = false) :
    (findDeprecatedItems ("// @deprecated " ++ text) fp).length = 2 ∧
    getTotalCount ((findDeprecatedItems ("// @deprecated " ++ text) fp).foldl
        categorizeDeprecatedItem initDeprecatedApis) =
      getTotalCount initDeprecatedApis + 2 := by
  have hdata : ("// @deprecated " ++ text).data =
      '/' :: '/' :: ' ' :: '@' :: 'd' :: 'e' :: 'p' :: 'r' :: 'e' :: 'c' :: 'a' :: 't' :: 'e' :: 'd' :: ' ' ::text.data := rfl
  have hnl2 : ∀ c ∈ ("// @deprecated " ++ text).data, c ≠ '\n' := by
    intro c h
    rw [hdata] at h
    simp only [List.mem_cons] at h
    rcases h with rfl|rfl|rfl|rfl|rfl|rfl|rfl|rfl|rfl|rfl|rfl|rfl|rfl|rfl|rfl|h
    · decide
    · decide
    · decide
    · decide
    · decide
    · decide
    · decide
    · decide
    · decide
    · decide
    · decide
    · decide
    · decide
    · decide
    · decide
    · exact hnl c h
  have hsplit : splitNl ("// @deprecated " ++ text).data =
      [("// @deprecated " ++ text).data] := splitNl_no_nl _ hnl2
  have h1 : (scanLeft p1TryAt ("// @deprecated " ++ text).data).isSome = true := by
    rw [hdata]; exact scanLine_p1 text.data hne
  obtain ⟨v1, hv1⟩ := Option.isSome_iff_exists.mp h1
  have h3 : (scanLeft p3TryAt ("// @deprecated " ++ text).data).isSome = true := by
    rw [hdata]; exact scanLine_p3 text.data hne
  obtain ⟨v3, hv3⟩ := Option.isSome_iff_exists.mp h3
  have h2 : scanLeft p2TryAt ("// @deprecated " ++ text).data = none := by
    refine scanLeft_none_of_lit p2TryAt "/**".data (fun s hs => p2TryAt_none s hs) _ ?_
    exact hss
  have hfind : findDeprecatedItems ("// @deprecated " ++ text) fp =
      lineItems [("// @deprecated " ++ text)] fp 0 ("// @deprecated " ++ text) := by
    simp only [findDeprecatedItems]
    rw [hsplit]
    have hr1 : List.range (List.map String.mk
        [("// @deprecated " ++ text).data]).length = [0] := rfl
    rw [hr1]
    simp only [List.flatMap_cons, List.flatMap_nil, List.append_nil]
    rfl
  have hline : ∃ a b, lineItems [("// @deprecated " ++ text)] fp 0
      ("// @deprecated " ++ text) = [a, b] := by
    refine ⟨{ file := fp, line := 1, reason := reasonOfGroup v1.2,
              context := getContextualInfo ["// @deprecated " ++ text] 0,
              type := guessItemType (getContextualInfo ["// @deprecated " ++ text] 0),
              fullMatch := v1.1 },
            { file := fp, line := 1, reason := reasonOfGroup v3.2,
              context := getContextualInfo ["// @deprecated " ++ text] 0,
              type := guessItemType (getContextualInfo ["// @deprecated " ++ text] 0),
              fullMatch := v3.1 }, ?_⟩
    rw [hdata] at hv1 h2 hv3
    simp [lineItems, hv1, h2, hv3]
  obtain ⟨a, b, hab⟩ := hline
  rw [hfind, hab]
  refine ⟨rfl, ?_⟩
  simp only [List.foldl]
  rw [getTotalCount_categorize, getTotalCount_categorize]

/-- Witness for C10 at a concrete annotation line. -/
theorem c10_witness :
    (findDeprecatedItems ("// @deprecated " ++ "use serializeGraph") "a.ts").length
      = 2 ∧
    getTotalCount
        ((findDeprecatedItems ("// @deprecated " ++ "use serializeGraph")
            "a.ts").foldl categorizeDeprecatedItem initDeprecatedApis) =
      getTotalCount initDeprecatedApis + 2 :=
  c10_single_line_double_report "use serializeGraph" "a.ts" (by decide)
    (by decide) (by decide)
